import Mathlib

/-!
# Verification of the SeQUeNCe-Parallel optical-channel and routing core

Shallow embedding of `src/sequence/components/optical_channel.py`
(`QuantumChannel`, `ClassicalChannel`) and
`src/sequence/network_management/routing.py` (`StaticRoutingProtocol`),
with theorems settling the frozen claims about them.

Modelling conventions:
* simulation times and time-bin indices are `ℤ` (Python `int`);
* the high-precision `gmpy2` mpfr/mpz arithmetic of the time-bin conversions
  is modelled by exact rational arithmetic over `ℚ`;
* physical floating-point quantities (attenuation, distance, loss,
  polarization fidelity, random draws) are modelled over `ℝ`;
* the `send_bins` min-heap is modelled as a sorted list viewed through its
  push / pop-min interface;
* fallible code (Python `assert`, `raise`, `KeyError`, `IndexError`) returns
  `Except`;
* the random generator draws consumed by `transmit` are passed as explicit
  arguments `r1`, `r2` (each drawn uniformly from `[0,1)` in the source).
-/

namespace SeqSim

/-- Modelled from the spec: the constants module (`src/sequence/constants.py`)
is not among the provided sources.  The spec fixes picosecond resolution with
integer simulation time, so `SECOND` (aliased `PS_PER_SECOND` in
`optical_channel.py`) is the number of picoseconds per second, `10^12`. -/
def PS_PER_SECOND : ℤ := 10 ^ 12

/-- Modelled from the spec: `EPSILON` also comes from the absent constants
module; the spec describes it only as "a small tolerance (guards against
floating-point noise)".  Where a concrete value is needed we use `10⁻⁸`;
the general theorems below are parametric in the tolerance `eps`. -/
def EPSILON : ℚ := 1 / 10 ^ 8

/-- Python `int()` applied to a (here exact rational) number:
truncation toward zero. -/
def pyInt (q : ℚ) : ℤ := if q < 0 then -⌊-q⌋ else ⌊q⌋

/-- Model of `QuantumChannel.time_to_timebin(time, frequency)`
(optical_channel.py lines 191–210): compute `time * frequency / PS_PER_SECOND`
exactly, round up when the fractional part exceeds the tolerance, otherwise
truncate.  The mpfr computation (200-bit precision) is modelled by exact
rational arithmetic; the global tolerance `EPSILON_MPFR` is the parameter
`eps`. -/
def time_to_timebin (eps : ℚ) (time : ℤ) (frequency : ℚ) : ℤ :=
  let time_bin : ℚ := time * frequency / (PS_PER_SECOND : ℚ)
  if time_bin - ⌊time_bin⌋ > eps then pyInt time_bin + 1 else pyInt time_bin

/-- Model of `QuantumChannel.timebin_to_time(time_bin, frequency)`
(optical_channel.py lines 212–227): `int(time_bin * PS_PER_SECOND / frequency)`
with exact arithmetic. -/
def timebin_to_time (time_bin : ℤ) (frequency : ℚ) : ℤ :=
  pyInt ((time_bin * PS_PER_SECOND : ℚ) / frequency)

-- sanity: slot 3 at the default 8e7 Hz lands at 3 * 12500 ps
example : timebin_to_time 3 (8 * 10 ^ 7) = 37500 := by
  norm_num [timebin_to_time, pyInt, PS_PER_SECOND]

example : time_to_timebin (1 / 10 ^ 8) 37500 (8 * 10 ^ 7) = 3 := by
  norm_num [time_to_timebin, pyInt, PS_PER_SECOND]

/-- Photon state, as far as the channel code inspects or modifies it:
`encoding_type["name"]`, the `is_null` flag, the accumulated `loss`
bookkeeping field and the abstract `quantum_state` key.  The `noised` flag
records whether `random_noise` has been applied (`photon.py` is not among
the provided sources, so the effect of noise on the state is abstract). -/
structure Photon where
  encoding_name : String
  is_null : Bool
  loss : ℝ
  quantum_state : ℕ
  noised : Bool

/-- Modelled from the spec: `Photon.add_loss` lives in the absent
`photon.py`; the spec says a null qubit "still accumulates loss
bookkeeping", so the channel loss is compounded into the photon's `loss`
field. -/
noncomputable def Photon.add_loss (p : Photon) (l : ℝ) : Photon :=
  { p with loss := 1 - (1 - p.loss) * (1 - l) }

/-- Modelled from the spec: `Photon.random_noise` lives in the absent
`photon.py`; the spec says surviving polarization qubits failing the
fidelity trial "undergo depolarizing noise".  We record only that noise was
applied. -/
def Photon.random_noise (p : Photon) : Photon :=
  { p with noised := true }

/-- State of a `QuantumChannel` (optical_channel.py lines 72–109): the
`OpticalChannel` base fields plus the derived `delay`/`loss`, the maximum
transmission `frequency` and the `send_bins` reservation heap (modelled as
a sorted list of time-bin indices). -/
structure QuantumChannel where
  name : String
  sender : Option String
  receiver : String
  attenuation : ℝ
  distance : ℝ
  polarization_fidelity : ℝ
  light_speed : ℝ
  frequency : ℚ
  delay : ℤ
  loss : ℝ
  send_bins : List ℤ

/-- Model of `QuantumChannel.__init__` (lines 89–109): base constructor with unset
endpoints, then the sentinels `delay = -1`, `loss = 1` and an empty
reservation heap. -/
def mkQuantumChannel (name : String) (attenuation distance polarization_fidelity
    light_speed : ℝ) (frequency : ℚ) : QuantumChannel :=
  { name := name
    sender := none
    receiver := ""
    attenuation := attenuation
    distance := distance
    polarization_fidelity := polarization_fidelity
    light_speed := light_speed
    frequency := frequency
    delay := -1
    loss := 1
    send_bins := [] }

/-- Python 3 `round()`: round half to even (banker's rounding). -/
noncomputable def pyRound (x : ℝ) : ℤ :=
  if x - ⌊x⌋ < 1 / 2 then ⌊x⌋
  else if 1 / 2 < x - ⌊x⌋ then ⌊x⌋ + 1
  else if Even ⌊x⌋ then ⌊x⌋ else ⌊x⌋ + 1

/-- The loss derived by `QuantumChannel.init` (line 115):
`1 - 10 ** (distance * attenuation / -10)`. -/
noncomputable def channelLoss (distance attenuation : ℝ) : ℝ :=
  1 - (10 : ℝ) ^ (distance * attenuation / (-10))

/-- Model of `QuantumChannel.init` (lines 111–115): derive `delay` and `loss` from
the physical parameters. -/
noncomputable def QuantumChannel.init (qc : QuantumChannel) : QuantumChannel :=
  { qc with
    delay := pyRound (qc.distance / qc.light_speed)
    loss := channelLoss qc.distance qc.attenuation }

/-- Model of `QuantumChannel.set_ends` (lines 117–130): bind the sender and the
receiver name (the registration with the sender node is outside the
channel's state). -/
def QuantumChannel.set_ends (qc : QuantumChannel) (sender : String)
    (receiver : String) : QuantumChannel :=
  { qc with sender := some sender, receiver := receiver }

/-- An arrival event scheduled by a quantum channel: a `Process` on the
receiver's `receive_qubit` activation carrying the sender name and the
photon, wrapped in an `Event` at `time`. -/
structure QubitEvent where
  time : ℤ
  owner : String
  activation : String
  srcName : String
  qubit : Photon

/-- The ways `QuantumChannel.transmit` can fail fatally: the init assert
(line 146), the source assert (line 147), `heappop` from an exhausted heap
(IndexError, line 153) and the slot-discipline assert (line 155). -/
inductive TransmitError where
  | notInitialized
  | wrongSource
  | binsExhausted
  | invalidTime
deriving DecidableEq

/-- Effects of a successful `transmit` call: the updated channel (reservation
heap after popping), the `quantum_manager.add_loss` call made in the Fock
branch, the `move_manage_to_server` call made when the receiver lives on
another timeline, and the scheduled arrival events. -/
structure TransmitEffects where
  channel : QuantumChannel
  fockLoss : Option (ℕ × ℝ)
  movedToServer : Option ℕ
  events : List QubitEvent

/-- The past-due-discarding loop of `transmit` (lines 150–154): starting
from `time = -1 < now`, repeatedly `heappop` the reservation heap and
convert the popped bin to a time, while that time is `< now`.  Returns the
first popped time `≥ now` together with the remaining heap, or `none` when
the heap is exhausted (Python: `IndexError`).  The heap is modelled as a
sorted list, so `heappop` takes the head. -/
def popBins (bins : List ℤ) (now : ℤ) (f : ℚ) : Option (ℤ × List ℤ) :=
  match bins with
  | [] => none
  | b :: rest =>
    let t := timebin_to_time b f
    if t < now then popBins rest now f else some (t, rest)

/-- The "remove lowest time bin" block of `transmit` (lines 149–155): when
the reservation heap is non-empty, discard past-due slots and check that the
next pending slot's time is exactly `now`, returning the remaining heap;
when it is empty the whole block is skipped. -/
def consumeBin (bins : List ℤ) (now : ℤ) (f : ℚ) :
    Except TransmitError (List ℤ) :=
  if bins = [] then .ok bins
  else
    match popBins bins now f with
    | none => .error .binsExhausted
    | some (t, rest) => if t = now then .ok rest else .error .invalidTime

open Classical in
/-- Model of `QuantumChannel.transmit` (lines 132–189).  `now` is `timeline.now()`,
`receiverLocal` is the negation of `_receiver_on_other_tl()`, and `r1`, `r2`
are the successive draws of `sender.get_generator().random()` consumed by
the survival and polarization trials (each in `[0,1)`; `r2` is only consulted
for polarization-encoded qubits). -/
noncomputable def QuantumChannel.transmit (qc : QuantumChannel) (qubit : Photon)
    (source : String) (now : ℤ) (receiverLocal : Bool) (r1 r2 : ℝ) :
    Except TransmitError TransmitEffects :=
  if ¬(0 ≤ qc.delay ∧ qc.loss < 1) then .error .notInitialized
  else if qc.sender ≠ some source then .error .wrongSource
  else
    match consumeBin qc.send_bins now qc.frequency with
    | .error e => .error e
    | .ok bins =>
      if qubit.encoding_name = "fock" then
        .ok { channel := { qc with send_bins := bins }
              fockLoss := some (qubit.quantum_state, qc.loss)
              movedToServer := none
              events := [{ time := now + qc.delay, owner := qc.receiver,
                           activation := "receive_qubit", srcName := source,
                           qubit := qubit }] }
      else if qc.loss < r1 ∨ qubit.is_null then
        let moved := if receiverLocal then none else some qubit.quantum_state
        let q1 := if qubit.is_null then qubit.add_loss qc.loss else qubit
        let q2 := if qubit.encoding_name = "polarization" ∧
                     qc.polarization_fidelity < r2 then q1.random_noise else q1
        .ok { channel := { qc with send_bins := bins }
              fockLoss := none
              movedToServer := moved
              events := [{ time := now + qc.delay, owner := qc.receiver,
                           activation := "receive_qubit", srcName := source,
                           qubit := q2 }] }
      else
        .ok { channel := { qc with send_bins := bins }
              fockLoss := none
              movedToServer := none
              events := [] }

/-- The linear probe of `schedule_transmit` (lines 245–246):
`while time_bin in self.send_bins: time_bin += 1`, with explicit fuel
(`bins.length + 1` suffices, since each probed occupied bin is a distinct
member of the list). -/
def findFreeBin : ℕ → List ℤ → ℤ → ℤ
  | 0, _, b => b
  | fuel + 1, bins, b => if b ∈ bins then findFreeBin fuel bins (b + 1) else b

/-- Model of `QuantumChannel.schedule_transmit` (lines 229–250): clamp `min_time` to
`now`, convert to a time bin, probe forward to the first unreserved bin,
push it onto the heap and return the bin's absolute time.  Returns the
updated channel and the returned time. -/
def QuantumChannel.schedule_transmit (qc : QuantumChannel) (eps : ℚ)
    (min_time now : ℤ) : QuantumChannel × ℤ :=
  let mt := max min_time now
  let tb0 := time_to_timebin eps mt qc.frequency
  let tb := findFreeBin (qc.send_bins.length + 1) qc.send_bins tb0
  ({ qc with send_bins := qc.send_bins.orderedInsert (· ≤ ·) tb },
   timebin_to_time tb qc.frequency)

/-- Messages exchanged by the protocol stack (`message.py` plus
`StaticRoutingMessage` from `routing.py`): an abstract base message carries
a type tag and a receiver; a routing envelope additionally carries a nested
payload message (its `msg_type` is the literal `Enum` class in the source,
modelled by the fixed tag `"Enum"` in `PyMessage.routed`). -/
inductive PyMessage where
  | base (msg_type : String) (receiver : String)
  | routed (msg_type : String) (receiver : String) (payload : PyMessage)
deriving DecidableEq

/-- State of a `ClassicalChannel` (optical_channel.py lines 256–284): endpoints
and the (already rounded, integer picosecond) `delay`. -/
structure ClassicalChannel where
  name : String
  sender : Option String
  receiver : String
  delay : ℤ

/-- An arrival event scheduled by a classical channel: a `Process` on the
receiver's `receive_message` activation carrying the sender name and the
message, wrapped in an `Event` at `time` with the explicit `priority`. -/
structure MsgEvent where
  time : ℤ
  owner : String
  activation : String
  srcName : String
  msg : PyMessage
  priority : ℤ
deriving DecidableEq

/-- Model of `ClassicalChannel.transmit` (lines 301–319): assert the declared source
is the bound sender, then schedule one `receive_message` event at
`now + delay` with the caller-supplied priority (on integers,
`round(now + int(delay))` is exactly `now + delay`). -/
def ClassicalChannel.transmit (cc : ClassicalChannel) (message : PyMessage)
    (source : String) (priority now : ℤ) : Except Unit MsgEvent :=
  if cc.sender = some source then
    .ok { time := now + cc.delay, owner := cc.receiver,
          activation := "receive_message", srcName := source,
          msg := message, priority := priority }
  else .error ()

/-- One `ClassicalChannel.transmit` invocation: the simulation time of the
call, the message, the declared source and the priority. -/
structure ClassicalCall where
  now : ℤ
  msg : PyMessage
  source : String
  priority : ℤ

/-- A sequence of `ClassicalChannel.transmit` calls, collecting every
scheduled arrival event in call order; the first failing call aborts. -/
def ClassicalChannel.runTransmits (cc : ClassicalChannel) :
    List ClassicalCall → Except Unit (List MsgEvent)
  | [] => .ok []
  | c :: rest => do
    let e ← cc.transmit c.msg c.source c.priority c.now
    let es ← cc.runTransmits rest
    pure (e :: es)

/-- State of a `StaticRoutingProtocol` (routing.py lines 34–56): the owning
node's name, the protocol instance name, and the forwarding table
(a Python dict from destination name to next-hop name, modelled as an
association list with unique keys, first match winning). -/
structure StaticRoutingProtocol where
  ownerName : String
  name : String
  forwarding_table : List (String × String)

/-- Python `table[dst]` read: first association for the key. -/
def tableLookup (t : List (String × String)) (k : String) : Option String :=
  (t.find? (fun p => p.1 = k)).map (fun p => p.2)

/-- Python `table[dst] = v` write: overwrite an existing binding in place,
otherwise append. -/
def tableSet (t : List (String × String)) (k v : String) :
    List (String × String) :=
  if (t.find? (fun p => p.1 = k)).isSome then
    t.map (fun p => if p.1 = k then (k, v) else p)
  else t ++ [(k, v)]

/-- Model of `StaticRoutingProtocol.add_forwarding_rule` (routing.py lines 61–65):
assert the destination has no entry, then insert the mapping. -/
def StaticRoutingProtocol.add_forwarding_rule (p : StaticRoutingProtocol)
    (dst next_node : String) : Except Unit StaticRoutingProtocol :=
  if (tableLookup p.forwarding_table dst).isSome then .error ()
  else .ok { p with forwarding_table := tableSet p.forwarding_table dst next_node }

/-- Model of `StaticRoutingProtocol.update_forwarding_rule` (routing.py lines 67–70):
unconditional overwrite, never fails. -/
def StaticRoutingProtocol.update_forwarding_rule (p : StaticRoutingProtocol)
    (dst next_node : String) : StaticRoutingProtocol :=
  { p with forwarding_table := tableSet p.forwarding_table dst next_node }

/-- The ways `StaticRoutingProtocol.push` can fail fatally: the
`dst != owner.name` assert (line 86), the forwarding-table `KeyError`
(line 89), and the `raise Exception` when both `dst` and `next_hop` are
falsy (line 94). -/
inductive PushError where
  | ownerAssert
  | unknownDestination
  | bothAbsent
deriving DecidableEq

/-- Python truthiness of an optional string: `None` and `""` are falsy. -/
def truthy : Option String → Bool
  | none => false
  | some s => !s.isEmpty

/-- The routing envelope built by `push` (line 87):
`StaticRoutingMessage(Enum, self.name, msg)`. -/
def routingWrap (p : StaticRoutingProtocol) (msg : PyMessage) : PyMessage :=
  .routed "Enum" p.name msg

/-- Model of `StaticRoutingProtocol.push` (routing.py lines 72–94): assert
`dst != owner.name`, wrap the message, then resolve the next hop — from the
forwarding table when `dst` is truthy (a missing key raising `KeyError`),
directly from `next_hop` when `dst` is falsy and `next_hop` truthy, and
raising otherwise.  A successful call is modelled by the pair (next hop the
lower layer is addressed toward, wrapped message handed to `_push`). -/
def StaticRoutingProtocol.push (p : StaticRoutingProtocol) (dst : Option String)
    (msg : PyMessage) (next_hop : Option String) :
    Except PushError (String × PyMessage) :=
  if dst = some p.ownerName then .error .ownerAssert
  else
    let new_msg := routingWrap p msg
    if truthy dst then
      match tableLookup p.forwarding_table (dst.getD "") with
      | some nh => .ok (nh, new_msg)
      | none => .error .unknownDestination
    else if truthy next_hop then .ok (next_hop.getD "", new_msg)
    else .error .bothAbsent

/-! ## Forwarding-table lemmas -/

theorem tableLookup_append_absent (t : List (String × String)) (k v : String)
    (h : t.find? (fun p => p.1 = k) = none) :
    tableLookup (t ++ [(k, v)]) k = some v := by
  induction t with
  | nil => simp [tableLookup]
  | cons a t ih =>
    by_cases hk : a.1 = k
    · rw [List.find?_cons_of_pos _ (by simpa using hk)] at h
      exact absurd h (by simp)
    · rw [List.find?_cons_of_neg _ (by simpa using hk)] at h
      rw [List.cons_append, tableLookup,
        List.find?_cons_of_neg _ (by simpa using hk)]
      exact ih h

theorem tableLookup_overwrite (t : List (String × String)) (k v : String)
    (h : (t.find? (fun p => p.1 = k)).isSome = true) :
    tableLookup (t.map (fun p => if p.1 = k then (k, v) else p)) k = some v := by
  induction t with
  | nil => simp at h
  | cons a t ih =>
    by_cases ha : a.1 = k
    · simp [tableLookup, ha]
    · rw [List.find?_cons_of_neg _ (by simpa using ha)] at h
      have hfa : (if a.1 = k then ((k, v) : String × String) else a) = a := if_neg ha
      rw [List.map_cons, hfa, tableLookup,
        List.find?_cons_of_neg _ (by simpa using ha)]
      exact ih h

theorem tableLookup_set (t : List (String × String)) (k v : String) :
    tableLookup (tableSet t k v) k = some v := by
  rw [tableSet]
  by_cases h : (t.find? (fun p => p.1 = k)).isSome
  · rw [if_pos h]; exact tableLookup_overwrite t k v h
  · rw [if_neg h]
    exact tableLookup_append_absent t k v (Option.not_isSome_iff_eq_none.1 h)

/-! ## Claim theorems: routing layer -/

/-- C8: `add_forwarding_rule` fails exactly when the destination already has
an entry and otherwise inserts the mapping, while `update_forwarding_rule`
always succeeds (it is a total function) and overwrites any existing entry,
so that the two operations are not interchangeable on an existing key. -/
theorem C8_forwarding_rules (p : StaticRoutingProtocol) (dst next_node : String) :
    ((tableLookup p.forwarding_table dst).isSome = true →
      p.add_forwarding_rule dst next_node = .error ())
    ∧ (tableLookup p.forwarding_table dst = none →
      p.add_forwarding_rule dst next_node =
        .ok { p with forwarding_table := p.forwarding_table ++ [(dst, next_node)] }
      ∧ tableLookup (p.forwarding_table ++ [(dst, next_node)]) dst = some next_node)
    ∧ tableLookup (p.update_forwarding_rule dst next_node).forwarding_table dst
        = some next_node := by
  refine ⟨fun h => ?_, fun h => ⟨?_, ?_⟩, ?_⟩
  · rw [StaticRoutingProtocol.add_forwarding_rule, if_pos h]
  · have h' : ¬((tableLookup p.forwarding_table dst).isSome = true) := by
      simp [h]
    rw [StaticRoutingProtocol.add_forwarding_rule, if_neg h', tableSet]
    have hfind : p.forwarding_table.find? (fun q => q.1 = dst) = none := by
      have := h
      rwa [tableLookup, Option.map_eq_none'] at this
    rw [if_neg (by simp [hfind])]
  · have hfind : p.forwarding_table.find? (fun q => q.1 = dst) = none := by
      have := h
      rwa [tableLookup, Option.map_eq_none'] at this
    exact tableLookup_append_absent _ _ _ hfind
  · exact tableLookup_set _ _ _

/-- C8 witness: on the concrete table `[("X", "Y")]`, adding a rule for the
existing key `"X"` fails, adding one for the fresh key `"W"` inserts it, and
updating `"X"` overwrites it. -/
theorem C8_witness :
    (tableLookup [("X", "Y")] "X").isSome = true
    ∧ StaticRoutingProtocol.add_forwarding_rule ⟨"n1", "rp", [("X", "Y")]⟩ "X" "Z"
        = .error ()
    ∧ tableLookup [("X", "Y")] "W" = none
    ∧ StaticRoutingProtocol.add_forwarding_rule ⟨"n1", "rp", [("X", "Y")]⟩ "W" "Z"
        = .ok ⟨"n1", "rp", [("X", "Y"), ("W", "Z")]⟩
    ∧ tableLookup (StaticRoutingProtocol.update_forwarding_rule
        ⟨"n1", "rp", [("X", "Y")]⟩ "X" "Z").forwarding_table "X" = some "Z" := by
  refine ⟨by decide,
    (C8_forwarding_rules ⟨"n1", "rp", [("X", "Y")]⟩ "X" "Z").1 (by decide),
    by decide, ?_,
    (C8_forwarding_rules ⟨"n1", "rp", [("X", "Y")]⟩ "X" "Z").2.2⟩
  exact ((C8_forwarding_rules ⟨"n1", "rp", [("X", "Y")]⟩ "W" "Z").2.1 (by decide)).1

/-- C10: `push` called with `dst` equal to the owning node's name fails
fatally (the `assert dst != self.owner.name` on routing.py line 86) before
any wrapping or delegation, whatever the forwarding table — including when
it has an entry for that very name — and whatever `next_hop` is. -/
theorem C10_push_own_name (p : StaticRoutingProtocol) (msg : PyMessage)
    (next_hop : Option String) :
    p.push (some p.ownerName) msg next_hop = .error .ownerAssert := by
  rw [StaticRoutingProtocol.push, if_pos rfl]

/-- C6 counterexample: with owner `"A"` and forwarding table `[("A", "B")]`,
`push(dst := "A", next_hop := None)` has a given, known destination, so the
claim says the wrapped message is delegated toward `"B"`; the code instead
fails fatally on the owner-name assert. -/
theorem C6_counterexample :
    StaticRoutingProtocol.push ⟨"A", "rp", [("A", "B")]⟩ (some "A")
      (PyMessage.base "t" "r") none = .error .ownerAssert := by
  rw [StaticRoutingProtocol.push, if_pos rfl]

/-- C6 (amended): provided `dst` is not the owning node's name, `push`
resolves the next hop from the forwarding table when `dst` is given (truthy,
i.e. non-`None` and non-empty), an unknown destination failing fatally;
uses `next_hop` directly when `dst` is absent and `next_hop` truthy; fails
fatally when both are absent; and in the non-failing cases delegates the
message wrapped in a routing envelope toward the resolved next hop. -/
theorem C6_push_contract (p : StaticRoutingProtocol) (dst : Option String)
    (msg : PyMessage) (next_hop : Option String)
    (hown : dst ≠ some p.ownerName) :
    (∀ d, dst = some d → d ≠ "" →
      p.push dst msg next_hop =
        (tableLookup p.forwarding_table d).elim
          (.error .unknownDestination) (fun nh => .ok (nh, routingWrap p msg)))
    ∧ (truthy dst = false → ∀ h, next_hop = some h → h ≠ "" →
      p.push dst msg next_hop = .ok (h, routingWrap p msg))
    ∧ (truthy dst = false → truthy next_hop = false →
      p.push dst msg next_hop = .error .bothAbsent) := by
  refine ⟨fun d hd hd' => ?_, fun h1 h hnh hnh' => ?_, fun h1 h2 => ?_⟩
  · subst hd
    have htr : truthy (some d) = true := by
      simp [truthy, Bool.eq_false_iff, String.isEmpty_iff, hd']
    rw [StaticRoutingProtocol.push, if_neg hown, if_pos htr]
    cases hl : tableLookup p.forwarding_table d with
    | none => simp [hl]
    | some nh => simp [hl]
  · subst hnh
    have htr : truthy (some h) = true := by
      simp [truthy, Bool.eq_false_iff, String.isEmpty_iff, hnh']
    rw [StaticRoutingProtocol.push, if_neg hown, if_neg (by simp [h1]),
      if_pos htr]
    rfl
  · rw [StaticRoutingProtocol.push, if_neg hown, if_neg (by simp [h1]),
      if_neg (by simp [h2])]

/-- C6 witness: with owner `"A"` and table `[("B", "C")]`, a known `dst`
delegates the wrapped message toward `"C"`, an unknown `dst` fails the
lookup, a bare `next_hop` is used directly, and two absent arguments fail. -/
theorem C6_witness :
    StaticRoutingProtocol.push ⟨"A", "rp", [("B", "C")]⟩ (some "B")
      (PyMessage.base "t" "r") none
      = .ok ("C", PyMessage.routed "Enum" "rp" (PyMessage.base "t" "r"))
    ∧ StaticRoutingProtocol.push ⟨"A", "rp", [("B", "C")]⟩ (some "Z")
      (PyMessage.base "t" "r") none = .error .unknownDestination
    ∧ StaticRoutingProtocol.push ⟨"A", "rp", [("B", "C")]⟩ none
      (PyMessage.base "t" "r") (some "B")
      = .ok ("B", PyMessage.routed "Enum" "rp" (PyMessage.base "t" "r"))
    ∧ StaticRoutingProtocol.push ⟨"A", "rp", [("B", "C")]⟩ none
      (PyMessage.base "t" "r") none = .error .bothAbsent := by
  refine ⟨?_, ?_, ?_, ?_⟩
  · have h := (C6_push_contract ⟨"A", "rp", [("B", "C")]⟩ (some "B")
      (PyMessage.base "t" "r") none (by simp)).1 "B" rfl (by simp)
    simpa [tableLookup, routingWrap] using h
  · have h := (C6_push_contract ⟨"A", "rp", [("B", "C")]⟩ (some "Z")
      (PyMessage.base "t" "r") none (by simp)).1 "Z" rfl (by simp)
    simpa [tableLookup, routingWrap] using h
  · exact (C6_push_contract ⟨"A", "rp", [("B", "C")]⟩ none
      (PyMessage.base "t" "r") (some "B") (by simp)).2.1 rfl "B" rfl (by simp)
  · exact (C6_push_contract ⟨"A", "rp", [("B", "C")]⟩ none
      (PyMessage.base "t" "r") none (by simp)).2.2 rfl rfl

/-! ## Claim theorems: classical channel -/

/-- C5: `N` sequential `ClassicalChannel.transmit` calls whose declared
source is the bound sender schedule exactly `N` arrival events — one per
call, none dropped — each addressed to the receiver's `receive_message`
entry point at the call's simulation time plus the channel delay and
carrying the caller-supplied priority. -/
theorem C5_classical_no_drop (cc : ClassicalChannel) (calls : List ClassicalCall)
    (hsrc : ∀ c ∈ calls, cc.sender = some c.source) :
    cc.runTransmits calls =
      .ok (calls.map fun c =>
        { time := c.now + cc.delay, owner := cc.receiver,
          activation := "receive_message", srcName := c.source,
          msg := c.msg, priority := c.priority }) := by
  induction calls with
  | nil => rfl
  | cons c rest ih =>
    have h1 : cc.sender = some c.source := hsrc c (List.mem_cons_self c rest)
    have h2 := ih (fun d hd => hsrc d (List.mem_cons_of_mem c hd))
    rw [ClassicalChannel.runTransmits, ClassicalChannel.transmit, if_pos h1]
    rw [List.map_cons]
    simp only [bind, Except.bind, h2, pure, Except.pure]

/-- C5 witness: two concrete calls on a bound channel with delay `5`
schedule exactly two events at times `10 + 5` and `20 + 5` with the
caller-supplied priorities. -/
theorem C5_witness :
    (∀ c ∈ [ClassicalCall.mk 10 (PyMessage.base "t" "r") "s" 2,
            ClassicalCall.mk 20 (PyMessage.base "u" "r") "s" 1],
      (ClassicalChannel.mk "cc" (some "s") "recv" 5).sender = some c.source)
    ∧ (ClassicalChannel.mk "cc" (some "s") "recv" 5).runTransmits
        [ClassicalCall.mk 10 (PyMessage.base "t" "r") "s" 2,
         ClassicalCall.mk 20 (PyMessage.base "u" "r") "s" 1]
      = .ok [MsgEvent.mk 15 "recv" "receive_message" "s" (PyMessage.base "t" "r") 2,
             MsgEvent.mk 25 "recv" "receive_message" "s" (PyMessage.base "u" "r") 1] := by
  constructor
  · intro c hc
    fin_cases hc <;> rfl
  · have h := C5_classical_no_drop (ClassicalChannel.mk "cc" (some "s") "recv" 5)
      [ClassicalCall.mk 10 (PyMessage.base "t" "r") "s" 2,
       ClassicalCall.mk 20 (PyMessage.base "u" "r") "s" 1]
      (by intro c hc; fin_cases hc <;> rfl)
    simpa using h

/-! ## Claim theorems: quantum channel state machine -/

/-- C7: a freshly constructed `QuantumChannel` (before `init()`) carries the
sentinel values `delay = -1`, `loss = 1` — also after `set_ends` — and every
`transmit` attempt in that state fails fatally on the init assert; once
`init()` runs, `delay = round(distance / light_speed)` (Python banker's
rounding) and `loss = 1 - 10 ^ (distance * attenuation / -10)`. -/
theorem C7_sentinels_and_derivation (name s r source : String)
    (att dist fid speed : ℝ) (freq : ℚ) (qubit : Photon)
    (now : ℤ) (receiverLocal : Bool) (r1 r2 : ℝ) :
    (mkQuantumChannel name att dist fid speed freq).delay = -1
    ∧ (mkQuantumChannel name att dist fid speed freq).loss = 1
    ∧ (mkQuantumChannel name att dist fid speed freq).transmit qubit source now
        receiverLocal r1 r2 = .error .notInitialized
    ∧ ((mkQuantumChannel name att dist fid speed freq).set_ends s r).transmit
        qubit source now receiverLocal r1 r2 = .error .notInitialized
    ∧ (mkQuantumChannel name att dist fid speed freq).init.delay
        = pyRound (dist / speed)
    ∧ (mkQuantumChannel name att dist fid speed freq).init.loss
        = 1 - (10 : ℝ) ^ (dist * att / (-10)) := by
  refine ⟨rfl, rfl, ?_, ?_, rfl, rfl⟩
  · rw [QuantumChannel.transmit, if_pos]
    simp [mkQuantumChannel]
  · rw [QuantumChannel.transmit, if_pos]
    simp [mkQuantumChannel, QuantumChannel.set_ends]

/-- Central helper for the survival branch of `transmit` (lines 170–185):
on an initialized, correctly sourced channel whose reservation discipline
check succeeds, a non-Fock, non-null qubit whose survival trial passes and
whose polarization-noise trial does not fire is delivered unmodified in a
single arrival event at `now + delay`. -/
theorem transmit_delivers (qc : QuantumChannel) (qubit : Photon)
    (source : String) (now : ℤ) (receiverLocal : Bool) (r1 r2 : ℝ)
    (bins : List ℤ)
    (h1 : 0 ≤ qc.delay) (h1' : qc.loss < 1) (h2 : qc.sender = some source)
    (hcb : consumeBin qc.send_bins now qc.frequency = .ok bins)
    (hfock : qubit.encoding_name ≠ "fock") (hsurv : qc.loss < r1)
    (hnull : qubit.is_null = false)
    (hnoise : ¬(qubit.encoding_name = "polarization" ∧
      qc.polarization_fidelity < r2)) :
    qc.transmit qubit source now receiverLocal r1 r2 =
      .ok ⟨{ qc with send_bins := bins }, none,
        if receiverLocal then none else some qubit.quantum_state,
        [⟨now + qc.delay, qc.receiver, "receive_qubit", source, qubit⟩]⟩ := by
  have e1 : (¬(0 ≤ qc.delay ∧ qc.loss < 1)) = False := by simp [h1, h1']
  have e2 : (qc.sender ≠ some source) = False := by simp [h2]
  have e3 : (qubit.encoding_name = "fock") = False := eq_false hfock
  have e4 : (qc.loss < r1) = True := eq_true hsurv
  have e5 : (qubit.encoding_name = "polarization" ∧
      qc.polarization_fidelity < r2) = False := eq_false hnoise
  have e6 : (qubit.is_null = true) = False := by simp [hnull]
  rw [QuantumChannel.transmit]
  simp only [e1, e2, e3, e4, e5, e6, or_false, hcb, if_false, if_true,
    ite_false, ite_true]

/-- C1 counterexample: on an initialized channel whose reservation heap is
empty — no slot was ever reserved, so the current time `7` is certainly not
a time previously returned by `schedule_transmit` — `transmit` does not fail:
the discipline check is skipped entirely and the qubit is delivered. -/
theorem C1_counterexample :
    QuantumChannel.transmit
      ⟨"qc", some "n1", "n2", 0, 0, 1, 1, 8 * 10 ^ 7, 0, 0, []⟩
      ⟨"polarization", false, 0, 0, false⟩ "n1" 7 true (1 / 2) 0
    = .ok ⟨⟨"qc", some "n1", "n2", 0, 0, 1, 1, 8 * 10 ^ 7, 0, 0, []⟩, none, none,
        [⟨7, "n2", "receive_qubit", "n1", ⟨"polarization", false, 0, 0, false⟩⟩]⟩ := by
  have h := transmit_delivers
    ⟨"qc", some "n1", "n2", 0, 0, 1, 1, 8 * 10 ^ 7, 0, 0, []⟩
    ⟨"polarization", false, 0, 0, false⟩ "n1" 7 true (1 / 2) 0 []
    le_rfl (by norm_num) rfl rfl (by simp) (by norm_num) rfl
    (by rintro ⟨-, h2⟩; norm_num at h2)
  simpa using h

/-- C1 (amended): whenever at least one slot is reserved and the current
simulation time is not the time of the next still-pending reserved slot
after past-due slots are discarded (including the case where every reserved
slot is past-due, which exhausts the heap), the `transmit` call fails
fatally.  When the reservation heap is empty the discipline check is
skipped, so the restriction to a non-empty heap is necessary — see the
counterexample. -/
theorem C1_transmit_discipline (qc : QuantumChannel) (qubit : Photon)
    (source : String) (now : ℤ) (receiverLocal : Bool) (r1 r2 : ℝ)
    (hbins : qc.send_bins ≠ [])
    (hmiss : (popBins qc.send_bins now qc.frequency).map Prod.fst ≠ some now) :
    ∃ e, qc.transmit qubit source now receiverLocal r1 r2 = .error e := by
  have hcb : ∃ e, consumeBin qc.send_bins now qc.frequency = .error e := by
    rw [consumeBin, if_neg hbins]
    cases hp : popBins qc.send_bins now qc.frequency with
    | none => exact ⟨.binsExhausted, rfl⟩
    | some tr =>
      obtain ⟨t, rest⟩ := tr
      have ht : t ≠ now := by
        rw [hp] at hmiss
        simpa using hmiss
      refine ⟨.invalidTime, ?_⟩
      show (if t = now then Except.ok rest
          else Except.error TransmitError.invalidTime)
        = Except.error TransmitError.invalidTime
      rw [if_neg ht]
  rw [QuantumChannel.transmit]
  by_cases h1 : ¬(0 ≤ qc.delay ∧ qc.loss < 1)
  · exact ⟨.notInitialized, by rw [if_pos h1]⟩
  · rw [if_neg h1]
    by_cases h2 : qc.sender ≠ some source
    · exact ⟨.wrongSource, by rw [if_pos h2]⟩
    · rw [if_neg h2]
      obtain ⟨e, he⟩ := hcb
      exact ⟨e, by rw [he]⟩

/-- C1 witness: a channel with one pending reservation (bin `5` at frequency
`10^12` Hz, i.e. slot time `5`) rejects a `transmit` at time `3`. -/
theorem C1_witness :
    (([5] : List ℤ) ≠ [])
    ∧ (popBins [5] 3 (10 ^ 12)).map Prod.fst ≠ some 3
    ∧ ∃ e, QuantumChannel.transmit
        ⟨"qc", some "n1", "n2", 0, 0, 1, 1, 10 ^ 12, 0, 0, [5]⟩
        ⟨"polarization", false, 0, 0, false⟩ "n1" 3 true (1 / 2) 0
      = .error e := by
  refine ⟨by simp, ?_, ?_⟩
  · norm_num [popBins, timebin_to_time, pyInt, PS_PER_SECOND]
  · exact C1_transmit_discipline _ _ _ _ _ _ _ (by simp)
      (by norm_num [popBins, timebin_to_time, pyInt, PS_PER_SECOND])

/-- The drop branch of `transmit` (lines 187–189): when the survival trial
fails (`random() > loss` is false) and the qubit is not null, the qubit is
silently dropped — no event is scheduled. -/
theorem transmit_drops (qc : QuantumChannel) (qubit : Photon)
    (source : String) (now : ℤ) (receiverLocal : Bool) (r1 r2 : ℝ)
    (bins : List ℤ)
    (h1 : 0 ≤ qc.delay) (h1' : qc.loss < 1) (h2 : qc.sender = some source)
    (hcb : consumeBin qc.send_bins now qc.frequency = .ok bins)
    (hfock : qubit.encoding_name ≠ "fock") (hsurv : ¬(qc.loss < r1))
    (hnull : qubit.is_null = false) :
    qc.transmit qubit source now receiverLocal r1 r2 =
      .ok ⟨{ qc with send_bins := bins }, none, none, []⟩ := by
  have e1 : (¬(0 ≤ qc.delay ∧ qc.loss < 1)) = False := by simp [h1, h1']
  have e2 : (qc.sender ≠ some source) = False := by simp [h2]
  have e3 : (qubit.encoding_name = "fock") = False := eq_false hfock
  have e4 : (qc.loss < r1) = False := eq_false hsurv
  have e6 : (qubit.is_null = true) = False := by simp [hnull]
  rw [QuantumChannel.transmit]
  simp only [e1, e2, e3, e4, e6, or_false, hcb, if_false, if_true,
    ite_false, ite_true]

/-- C4 counterexample: `0` is a possible draw of the generator (it lies in
`[0,1)`), yet on a channel with `loss = 0` and `polarization_fidelity = 1`
a non-null, non-Fock qubit transmitted under the draw `r1 = 0` is dropped —
the survival test is the strict `random() > loss`, which fails at `0 > 0` —
so no arrival event is scheduled, contradicting "exactly one arrival event
over every possible draw". -/
theorem C4_counterexample :
    (0 : ℝ) ∈ Set.Ico (0 : ℝ) 1
    ∧ QuantumChannel.transmit
        ⟨"qc", some "n1", "n2", 0, 0, 1, 1, 8 * 10 ^ 7, 0, 0, []⟩
        ⟨"polarization", false, 0, 0, false⟩ "n1" 10 true 0 0
      = .ok ⟨⟨"qc", some "n1", "n2", 0, 0, 1, 1, 8 * 10 ^ 7, 0, 0, []⟩,
          none, none, []⟩ := by
  refine ⟨by norm_num, ?_⟩
  have h := transmit_drops
    ⟨"qc", some "n1", "n2", 0, 0, 1, 1, 8 * 10 ^ 7, 0, 0, []⟩
    ⟨"polarization", false, 0, 0, false⟩ "n1" 10 true 0 0 []
    le_rfl (by norm_num) rfl rfl (by simp) (by norm_num) rfl
  simpa using h

/-- C4 (amended): on a channel with `loss = 0` and
`polarization_fidelity = 1` (initialized, correctly sourced, with the slot
discipline satisfied), every transmit of a non-null, non-Fock qubit under
generator draws `r1`, `r2 ∈ [0,1)` with `r1 ≠ 0` delivers the qubit
unmodified and schedules exactly one arrival event at `now + delay`
addressed to the receiver's `receive_qubit` entry point.  The strict
survival test `random() > loss` makes the boundary draw `r1 = 0` — possible
for a generator over `[0,1)` — drop the qubit, so the claim holds for every
draw except that boundary (i.e. with probability one), not for every draw. -/
theorem C4_lossless_delivery (qc : QuantumChannel) (qubit : Photon)
    (source : String) (now : ℤ) (receiverLocal : Bool) (r1 r2 : ℝ)
    (hloss : qc.loss = 0) (hfid : qc.polarization_fidelity = 1)
    (hdelay : 0 ≤ qc.delay) (hsender : qc.sender = some source)
    (hdisc : qc.send_bins = [] ∨
      (popBins qc.send_bins now qc.frequency).map Prod.fst = some now)
    (hfock : qubit.encoding_name ≠ "fock") (hnull : qubit.is_null = false)
    (hr1 : 0 < r1) (hr2 : r2 < 1) :
    ∃ bins, qc.transmit qubit source now receiverLocal r1 r2 =
      .ok ⟨{ qc with send_bins := bins }, none,
        if receiverLocal then none else some qubit.quantum_state,
        [⟨now + qc.delay, qc.receiver, "receive_qubit", source, qubit⟩]⟩ := by
  have hcb : ∃ bins, consumeBin qc.send_bins now qc.frequency = .ok bins := by
    rcases hdisc with h | h
    · exact ⟨qc.send_bins, by rw [consumeBin, if_pos h]⟩
    · have hne : qc.send_bins ≠ [] := by
        intro h0
        rw [h0] at h
        simp [popBins] at h
      cases hp : popBins qc.send_bins now qc.frequency with
      | none => rw [hp] at h; simp at h
      | some tr =>
        obtain ⟨t, rest⟩ := tr
        rw [hp] at h
        have ht : t = now := by simpa using h
        refine ⟨rest, ?_⟩
        rw [consumeBin, if_neg hne, hp]
        show (if t = now then Except.ok rest
            else Except.error TransmitError.invalidTime) = Except.ok rest
        rw [if_pos ht]
  obtain ⟨bins, hcb⟩ := hcb
  refine ⟨bins, transmit_delivers qc qubit source now receiverLocal r1 r2 bins
    hdelay (by rw [hloss]; norm_num) hsender hcb hfock
    (by rw [hloss]; exact hr1) hnull ?_⟩
  rintro ⟨-, hh⟩
  rw [hfid] at hh
  linarith

/-- C4 witness: a channel with `loss = 0`, fidelity `1`, delay `3` and an
empty reservation heap delivers a non-null `"time_bin"` qubit under the
draws `r1 = r2 = 1/2`, scheduling exactly one arrival event at `10 + 3`;
the receiver lives on another timeline, so the state key is moved. -/
theorem C4_witness :
    (0 : ℝ) < 1 / 2 ∧ (1 / 2 : ℝ) < 1
    ∧ ∃ bins, QuantumChannel.transmit
        ⟨"qc", some "n1", "n2", 0, 0, 1, 1, 8 * 10 ^ 7, 3, 0, []⟩
        ⟨"time_bin", false, 0, 6, false⟩ "n1" 10 false (1 / 2) (1 / 2)
      = .ok ⟨⟨"qc", some "n1", "n2", 0, 0, 1, 1, 8 * 10 ^ 7, 3, 0, bins⟩,
          none, some 6,
          [⟨13, "n2", "receive_qubit", "n1", ⟨"time_bin", false, 0, 6, false⟩⟩]⟩ := by
  refine ⟨by norm_num, by norm_num, ?_⟩
  have h := C4_lossless_delivery
    ⟨"qc", some "n1", "n2", 0, 0, 1, 1, 8 * 10 ^ 7, 3, 0, []⟩
    ⟨"time_bin", false, 0, 6, false⟩ "n1" 10 false (1 / 2) (1 / 2)
    rfl rfl (by norm_num) rfl (Or.inl rfl) (by simp) rfl
    (by norm_num) (by norm_num)
  obtain ⟨bins, hb⟩ := h
  exact ⟨bins, by simpa using hb⟩

/-! ## Time-bin round-trip arithmetic -/

theorem pyInt_intCast (n : ℤ) : pyInt (n : ℚ) = n := by
  rw [pyInt]
  split_ifs with h
  · rw [show (-(n : ℚ)) = ((-n : ℤ) : ℚ) by push_cast; ring,
      Int.floor_intCast, neg_neg]
  · exact Int.floor_intCast n

theorem pyInt_of_nonneg (q : ℚ) (h : 0 ≤ q) : pyInt q = ⌊q⌋ :=
  if_neg (not_lt.2 h)

/-- Feeding any time bin `t` whose slot time over-approximates `s` back
through `time_to_timebin` recovers `s`, provided the frequency does not
exceed `(1 - eps) * PS_PER_SECOND`. -/
theorem roundtrip_core (eps : ℚ) (s t : ℤ) (f : ℚ) (heps : 0 ≤ eps)
    (hf : 0 < f) (hfS : f ≤ (1 - eps) * (PS_PER_SECOND : ℚ))
    (hlb : (t : ℚ) * f ≤ (s : ℚ) * (PS_PER_SECOND : ℚ))
    (hub : (s : ℚ) * (PS_PER_SECOND : ℚ) < (t : ℚ) * f + f)
    (ht0 : 0 ≤ t) :
    time_to_timebin eps t f = s := by
  have hS : (0 : ℚ) < (PS_PER_SECOND : ℚ) := by norm_num [PS_PER_SECOND]
  rw [time_to_timebin]
  show (if ((t : ℚ) * f / (PS_PER_SECOND : ℚ))
        - ↑⌊(t : ℚ) * f / (PS_PER_SECOND : ℚ)⌋ > eps
      then pyInt ((t : ℚ) * f / (PS_PER_SECOND : ℚ)) + 1
      else pyInt ((t : ℚ) * f / (PS_PER_SECOND : ℚ))) = s
  set x : ℚ := (t : ℚ) * f / (PS_PER_SECOND : ℚ) with hxdef
  have hx0 : 0 ≤ x := by
    rw [hxdef]
    exact div_nonneg (mul_nonneg (by exact_mod_cast ht0) hf.le) hS.le
  have hxle : x ≤ (s : ℚ) := by
    rw [hxdef, div_le_iff₀ hS]
    exact hlb
  have hxgt : (s : ℚ) - 1 + eps < x := by
    rw [hxdef, lt_div_iff₀ hS]
    nlinarith [hub, hfS]
  rcases eq_or_lt_of_le hxle with heq | hlt
  · rw [heq, Int.floor_intCast, pyInt_intCast, if_neg]
    rw [sub_self]
    exact not_lt.2 heps
  · have hfloor : ⌊x⌋ = s - 1 := by
      rw [Int.floor_eq_iff]
      constructor
      · push_cast
        linarith
      · push_cast
        linarith
    have hcond : x - ↑⌊x⌋ > eps := by
      rw [hfloor]
      push_cast
      linarith
    rw [if_pos hcond, pyInt_of_nonneg _ hx0, hfloor]
    omega

/-- C2 (amended): for every non-negative integer slot `s` and every
frequency `0 < f ≤ (1 - eps) * PS_PER_SECOND` (with any tolerance
`eps ≥ 0`), converting `s` to absolute time with `timebin_to_time` and back
with `time_to_timebin` yields exactly `s`.  Above one slot per picosecond
(`f > PS_PER_SECOND`) the integer truncation of `timebin_to_time` collapses
distinct slots and the round-trip fails — see the counterexample — so the
bound on `f` is needed. -/
theorem C2_roundtrip (eps : ℚ) (s : ℤ) (f : ℚ) (hs : 0 ≤ s) (heps : 0 ≤ eps)
    (hf : 0 < f) (hfS : f ≤ (1 - eps) * (PS_PER_SECOND : ℚ)) :
    time_to_timebin eps (timebin_to_time s f) f = s := by
  have hS : (0 : ℚ) < (PS_PER_SECOND : ℚ) := by norm_num [PS_PER_SECOND]
  have hq0 : 0 ≤ ((s : ℚ) * (PS_PER_SECOND : ℚ)) / f :=
    div_nonneg (mul_nonneg (by exact_mod_cast hs) hS.le) hf.le
  have ht : timebin_to_time s f
      = ⌊((s : ℚ) * (PS_PER_SECOND : ℚ)) / f⌋ := by
    rw [timebin_to_time, pyInt_of_nonneg _ hq0]
  have hfl := Int.floor_le (((s : ℚ) * (PS_PER_SECOND : ℚ)) / f)
  have hfu := Int.lt_floor_add_one (((s : ℚ) * (PS_PER_SECOND : ℚ)) / f)
  rw [ht]
  refine roundtrip_core eps s _ f heps hf hfS ?_ ?_ (Int.floor_nonneg.2 hq0)
  · calc (↑⌊((s : ℚ) * (PS_PER_SECOND : ℚ)) / f⌋ : ℚ) * f
        ≤ (((s : ℚ) * (PS_PER_SECOND : ℚ)) / f) * f :=
          mul_le_mul_of_nonneg_right hfl hf.le
      _ = (s : ℚ) * (PS_PER_SECOND : ℚ) := div_mul_cancel₀ _ hf.ne'
  · have h2 := mul_lt_mul_of_pos_right hfu hf
    rw [div_mul_cancel₀ _ hf.ne'] at h2
    nlinarith [h2]

/-- C2 counterexample: at frequency `2 * 10^12` Hz (two slots per
picosecond), slot `1` maps to absolute time `int(1/2) = 0`, which maps back
to slot `0`, not `1`: the round-trip is not exact for every `f > 0`. -/
theorem C2_counterexample :
    time_to_timebin EPSILON (timebin_to_time 1 (2 * 10 ^ 12)) (2 * 10 ^ 12)
      ≠ 1 := by
  norm_num [time_to_timebin, timebin_to_time, pyInt, PS_PER_SECOND, EPSILON]

/-- C2 witness: the round-trip is exact at slot `3`, the default frequency
`8 * 10^7` Hz and the modelled tolerance `EPSILON`. -/
theorem C2_witness :
    (0 : ℤ) ≤ 3 ∧ (0 : ℚ) ≤ EPSILON ∧ (0 : ℚ) < 8 * 10 ^ 7
    ∧ (8 * 10 ^ 7 : ℚ) ≤ (1 - EPSILON) * (PS_PER_SECOND : ℚ)
    ∧ time_to_timebin EPSILON (timebin_to_time 3 (8 * 10 ^ 7)) (8 * 10 ^ 7)
        = 3 :=
  ⟨by norm_num, by norm_num [EPSILON], by norm_num,
   by norm_num [EPSILON, PS_PER_SECOND],
   C2_roundtrip EPSILON 3 (8 * 10 ^ 7) (by norm_num) (by norm_num [EPSILON])
     (by norm_num) (by norm_num [EPSILON, PS_PER_SECOND])⟩

/-! ## Slot scheduling -/

/-- When `PS_PER_SECOND / f` is an integer `k`, every slot time is exact:
`timebin_to_time b f = b * k`. -/
theorem timebin_to_time_exact (b k : ℤ) (f : ℚ)
    (hkf : (k : ℚ) = (PS_PER_SECOND : ℚ) / f) ( _hf : f ≠ 0) :
    timebin_to_time b f = b * k := by
  rw [timebin_to_time]
  have h : ((b : ℚ) * (PS_PER_SECOND : ℚ)) / f = ((b * k : ℤ) : ℚ) := by
    rw [mul_div_assoc, ← hkf]
    push_cast
    ring
  rw [h, pyInt_intCast]

/-- C3 (amended): on a channel with an empty reservation structure whose
frequency divides the time base (`PS_PER_SECOND / frequency` is a positive
integer `k` — true in particular of the default `8 * 10^7` Hz), two
consecutive `schedule_transmit` calls with the same `min_time` return two
distinct times, the second exactly `k = PS_PER_SECOND / frequency`
(i.e. `1/frequency` expressed in simulation time units) after the first.
For frequencies that do not divide the time base the returned times are
integers while `1/frequency` is not a whole number of time units, so the
spacing cannot be exact — see the counterexample. -/
theorem C3_schedule_spacing (qc : QuantumChannel) (eps : ℚ)
    (min_time now : ℤ) (k : ℤ) (hbins : qc.send_bins = []) (hk : 1 ≤ k)
    (hkf : (k : ℚ) = (PS_PER_SECOND : ℚ) / qc.frequency) :
    (qc.schedule_transmit eps min_time now).2
      ≠ ((qc.schedule_transmit eps min_time now).1.schedule_transmit
          eps min_time now).2
    ∧ ((qc.schedule_transmit eps min_time now).1.schedule_transmit
          eps min_time now).2
      = (qc.schedule_transmit eps min_time now).2 + k := by
  have hf : qc.frequency ≠ 0 := by
    intro h0
    rw [h0, div_zero] at hkf
    have hk0 : k = 0 := by exact_mod_cast hkf
    omega
  have h1 : qc.schedule_transmit eps min_time now
      = ({ qc with send_bins :=
            [time_to_timebin eps (max min_time now) qc.frequency] },
         timebin_to_time
           (time_to_timebin eps (max min_time now) qc.frequency)
           qc.frequency) := by
    rw [QuantumChannel.schedule_transmit, hbins]
    simp [findFreeBin, List.orderedInsert]
  have h2 : (({ qc with send_bins :=
        [time_to_timebin eps (max min_time now) qc.frequency] }
          : QuantumChannel).schedule_transmit eps min_time now).2
      = timebin_to_time
          (time_to_timebin eps (max min_time now) qc.frequency + 1)
          qc.frequency := by
    rw [QuantumChannel.schedule_transmit]
    simp [findFreeBin]
  rw [h1]
  dsimp only
  rw [h2, timebin_to_time_exact _ k _ hkf hf,
    timebin_to_time_exact _ k _ hkf hf]
  constructor
  · intro hEq
    rw [add_mul, one_mul] at hEq
    have : k = 0 := by linarith
    omega
  · ring

/-- C3 counterexample: at frequency `3` Hz (which does not divide the
`10^12` ps/s time base), two consecutive `schedule_transmit(0)` calls on an
empty channel return `0` and `333333333333` — distinct, but the spacing is
the truncated `⌊10^12 / 3⌋`, not exactly `1/frequency = 10^12/3` time
units as the claim requires. -/
theorem C3_counterexample :
    ((mkQuantumChannel "qc" 0 0 1 1 3).schedule_transmit EPSILON 0 0).2 = 0
    ∧ (((mkQuantumChannel "qc" 0 0 1 1 3).schedule_transmit
        EPSILON 0 0).1.schedule_transmit EPSILON 0 0).2 = 333333333333
    ∧ ((333333333333 : ℚ) - 0 ≠ (PS_PER_SECOND : ℚ) / 3) := by
  refine ⟨?_, ?_, by norm_num [PS_PER_SECOND]⟩
  · norm_num [mkQuantumChannel, QuantumChannel.schedule_transmit,
      time_to_timebin, timebin_to_time, pyInt, findFreeBin,
      List.orderedInsert, EPSILON, PS_PER_SECOND]
  · norm_num [mkQuantumChannel, QuantumChannel.schedule_transmit,
      time_to_timebin, timebin_to_time, pyInt, findFreeBin,
      List.orderedInsert, EPSILON, PS_PER_SECOND]

/-- C3 witness: at the default frequency `8 * 10^7` Hz
(`k = 10^12 / (8 * 10^7) = 12500`), two consecutive calls with
`min_time = 5` on an empty channel return distinct times spaced exactly
`12500` ps apart. -/
theorem C3_witness :
    ((mkQuantumChannel "qc" 0 0 1 1 (8 * 10 ^ 7)).send_bins = [])
    ∧ ((1 : ℤ) ≤ 12500)
    ∧ (((12500 : ℤ) : ℚ) = (PS_PER_SECOND : ℚ)
        / (mkQuantumChannel "qc" 0 0 1 1 (8 * 10 ^ 7)).frequency)
    ∧ (((mkQuantumChannel "qc" 0 0 1 1 (8 * 10 ^ 7)).schedule_transmit
          EPSILON 5 0).2
        ≠ (((mkQuantumChannel "qc" 0 0 1 1 (8 * 10 ^ 7)).schedule_transmit
            EPSILON 5 0).1.schedule_transmit EPSILON 5 0).2
      ∧ (((mkQuantumChannel "qc" 0 0 1 1 (8 * 10 ^ 7)).schedule_transmit
            EPSILON 5 0).1.schedule_transmit EPSILON 5 0).2
        = ((mkQuantumChannel "qc" 0 0 1 1 (8 * 10 ^ 7)).schedule_transmit
            EPSILON 5 0).2 + 12500) := by
  refine ⟨rfl, by norm_num, by norm_num [mkQuantumChannel, PS_PER_SECOND], ?_⟩
  exact C3_schedule_spacing (mkQuantumChannel "qc" 0 0 1 1 (8 * 10 ^ 7))
    EPSILON 5 0 12500 rfl (by norm_num)
    (by norm_num [mkQuantumChannel, PS_PER_SECOND])

/-! ## The fiber-loss law -/

/-- C9 counterexample: the loss `1 - 10^(d * a / -10)` is not strictly
increasing in the distance for every attenuation `a ≥ 0`: at `a = 0` it is
constantly `0`, so the claim's "strictly increasing in `d`" fails (and
symmetrically in `a` at `d = 0`). -/
theorem C9_counterexample :
    ¬ (∀ a : ℝ, 0 ≤ a →
      StrictMonoOn (fun d => channelLoss d a) (Set.Ici (0 : ℝ))) := by
  intro h
  have h0 := h 0 le_rfl (Set.mem_Ici.2 le_rfl) (Set.mem_Ici.2 zero_le_one)
    zero_lt_one
  simp [channelLoss] at h0

/-- C9 (amended): for all `d ≥ 0` and `a ≥ 0` the loss
`1 - 10^(d * a / -10)` computed by `QuantumChannel.init` lies in `[0, 1)`
and tends to `0` as `d → 0`; it is strictly increasing in `d` whenever
`a > 0`, and strictly increasing in `a` whenever `d > 0`.  Strictness fails
on the boundary (`a = 0`, respectively `d = 0`), where the loss is
constantly `0` — see the counterexample — so the claim's unconditional
strict monotonicity must be restricted to positive coefficients. -/
theorem C9_loss_properties (d a : ℝ) (hd : 0 ≤ d) (ha : 0 ≤ a) :
    channelLoss d a ∈ Set.Ico (0 : ℝ) 1
    ∧ (0 < a → StrictMonoOn (fun x => channelLoss x a) (Set.Ici (0 : ℝ)))
    ∧ (0 < d → StrictMonoOn (fun y => channelLoss d y) (Set.Ici (0 : ℝ)))
    ∧ Filter.Tendsto (fun x => channelLoss x a) (nhds 0) (nhds 0) := by
  refine ⟨⟨?_, ?_⟩, ?_, ?_, ?_⟩
  · rw [channelLoss, sub_nonneg]
    apply Real.rpow_le_one_of_one_le_of_nonpos (by norm_num)
    have h : d * a / (-10) = -(d * a / 10) := by ring
    rw [h]
    exact neg_nonpos.2 (div_nonneg (mul_nonneg hd ha) (by norm_num))
  · rw [channelLoss, sub_lt_self_iff]
    exact Real.rpow_pos_of_pos (by norm_num) _
  · intro ha' x hx y hy hxy
    dsimp only
    rw [channelLoss, channelLoss, sub_lt_sub_iff_left,
      Real.rpow_lt_rpow_left_iff (by norm_num : (1 : ℝ) < 10)]
    have hxy' : x * a < y * a := mul_lt_mul_of_pos_right hxy ha'
    linarith
  · intro hd' x hx y hy hxy
    dsimp only
    rw [channelLoss, channelLoss, sub_lt_sub_iff_left,
      Real.rpow_lt_rpow_left_iff (by norm_num : (1 : ℝ) < 10)]
    have hxy' : d * x < d * y := mul_lt_mul_of_pos_left hxy hd'
    linarith
  · have hrw : (fun x : ℝ => channelLoss x a)
        = fun x => 1 - Real.exp (Real.log 10 * (x * a / (-10))) := by
      funext x
      rw [channelLoss, Real.rpow_def_of_pos (by norm_num)]
    rw [hrw]
    have hcont : Continuous
        fun x : ℝ => 1 - Real.exp (Real.log 10 * (x * a / (-10))) :=
      continuous_const.sub (Real.continuous_exp.comp
        (continuous_const.mul ((continuous_id.mul continuous_const).div_const _)))
    have h := hcont.tendsto 0
    simpa using h

/-- C9 witness: at `d = a = 1` the loss lies in `[0, 1)`, both strict
monotonicity statements hold, and the loss tends to `0` with the distance. -/
theorem C9_witness :
    ((0 : ℝ) ≤ 1) ∧ ((0 : ℝ) < 1)
    ∧ channelLoss 1 1 ∈ Set.Ico (0 : ℝ) 1
    ∧ StrictMonoOn (fun x => channelLoss x 1) (Set.Ici (0 : ℝ))
    ∧ StrictMonoOn (fun y => channelLoss 1 y) (Set.Ici (0 : ℝ))
    ∧ Filter.Tendsto (fun x => channelLoss x 1) (nhds 0) (nhds 0) := by
  have h := C9_loss_properties 1 1 (by norm_num) (by norm_num)
  exact ⟨by norm_num, by norm_num, h.1, h.2.1 (by norm_num),
    h.2.2.1 (by norm_num), h.2.2.2⟩

end SeqSim
